import Mathlib

/-!
Verification development for the `argparse::Argument_Parser` command-line
argument parser (single header `include/argument-parser.h`).

The C++ class is shallowly embedded below: the registry is a record of
association lists (modelling the `std::unordered_map` members together with
the explicit order vectors the source keeps), the token scanner is a
recursive function over the token list, and the typed extractor is a family
of string-to-value parsers mirroring the `parse_string_arg` overload set.
C++ machine integers are modelled as `Nat`/`Int` with explicit bounds
(`2 ^ 63`, `2 ^ 64`, ...); `long double` values are modelled as exact
rationals plus explicit infinity/NaN markers.
-/

/-- Character class for a decimal digit, as tested by the C library numeric
conversions and by the regex class `[0-9]`. -/
def isDigitC (c : Char) : Bool :=
  '0' ≤ c && c ≤ '9'

/-- Character class `[a-zA-Z]`. -/
def isAlphaC (c : Char) : Bool :=
  ('a' ≤ c && c ≤ 'z') || ('A' ≤ c && c ≤ 'Z')

/-- Character class `\w`, i.e. `[a-zA-Z0-9_]` (ECMAScript word character). -/
def isWordC (c : Char) : Bool :=
  isAlphaC c || isDigitC c || c = '_'

/-- Character class `[a-zA-Z0-9_-]` used for the tail of argument names. -/
def isNameC (c : Char) : Bool :=
  isWordC c || c = '-'

/-- Character class `[a-zA-Z_]` used for the head of option names. -/
def isLetterUnd (c : Char) : Bool :=
  isAlphaC c || c = '_'

/-- The `Optional_Type` enumeration of the source (FLAG, SINGLE, APPEND). -/
inductive Optional_Type
  | FLAG
  | SINGLE
  | APPEND
deriving DecidableEq, Repr

/-- The `Positional_Info` struct: matched value and help text. -/
structure Positional_Info where
  value : String
  help_text : String
deriving DecidableEq, Repr

/-- The `Optional_Info` struct: flag character (`' '` when no flag is bound,
as in the source), kind, matched values, help text. -/
structure Optional_Info where
  flag : Char
  type : Optional_Type
  values : List String
  help_text : String
deriving DecidableEq, Repr

/-- The parser state: `m_scriptname`, `m_positional_order`,
`m_positional_args`, `m_optional_order`, `m_optional_args`, `m_flags`.
The unordered maps are modelled as association lists; all map manipulation
in the source first checks for key absence, so insertion order is the
declaration order. -/
structure ArgumentParser where
  scriptname : String
  positional_order : List String
  positional_args : List (String × Positional_Info)
  optional_order : List String
  optional_args : List (String × Optional_Info)
  flags : List (Char × String)
deriving DecidableEq, Repr

/-- Errors thrown as `std::logic_error` during declaration; the spec calls
all of them `ConflictError`. -/
inductive DeclError
  | invalidPositionalName (name : String)
  | duplicatePositionalName (name : String)
  | positionalConflictsOptional (name : String)
  | invalidOptionalName (name : String)
  | duplicateOptionalName (name : String)
  | optionalConflictsPositional (name : String)
  | invalidFlagName (name : String)
  | duplicateFlagName (name : String)
deriving DecidableEq, Repr

/-- Errors thrown as `std::runtime_error` during scanning. -/
inductive ScanError
  | unknownOption (tok : String)
  | missingValue (tok : String)
  | duplicate (tok : String)
  | missingPositional (name : String)
deriving DecidableEq, Repr

/-- Early termination of the scan walk: the built-in help short-circuit
(`print_help(); std::exit(0)`) or a thrown scanning error. -/
inductive ScanStop
  | help
  | fail (e : ScanError)
deriving DecidableEq, Repr

/-- Result of `parse_args`: success carries the updated parser state, the
updated `argc`, and the rewritten `argv[1..argc-1]` (the leftover tokens);
the other constructors carry the parser state at the moment of the
side effect (only `m_scriptname` has been written by then). -/
inductive ScanOutcome
  | ok (p : ArgumentParser) (argc : Nat) (leftover : List String)
  | helpExit (p : ArgumentParser)
  | err (p : ArgumentParser) (e : ScanError)
deriving DecidableEq, Repr

/-- Errors raised during extraction: `std::logic_error` for an unknown name
or a missing value, `std::out_of_range` for a bad index, `std::runtime_error`
for conversion failures.  The spec names them `UnknownArgumentError`,
`NoValueError`, `IndexOutOfRangeError`, `TypeConversionError`, `RangeError`. -/
inductive ExtractErr
  | unknownArgument
  | noValue
  | indexOutOfRange
  | typeConversion
  | range
deriving DecidableEq, Repr

/-- Failure modes of the C numeric conversions: `std::invalid_argument`
(no conversion could be performed) and `std::out_of_range`. -/
inductive NumErr
  | invalid
  | outOfRange
deriving DecidableEq, Repr

/-- Association-list lookup, modelling `unordered_map::find`. -/
def find_key {α β : Type} [DecidableEq α] (k : α) : List (α × β) → Option β
  | [] => none
  | e :: rest => if k = e.1 then some e.2 else find_key k rest

/-- Apply `f` to the mapped value of key `k`, modelling a write through an
`unordered_map` iterator. -/
def map_update {α β : Type} [DecidableEq α] (l : List (α × β)) (k : α) (f : β → β) :
    List (α × β) :=
  l.map (fun e => if e.1 = k then (e.1, f e.2) else e)

/-- Mirrors `valid_positional_name` (regex `\w[a-zA-Z0-9_-]*`, full match). -/
def valid_positional_name (s : String) : Bool :=
  match s.data with
  | [] => false
  | c :: rest => isWordC c && rest.all isNameC

/-- Mirrors `valid_option_name`
(regex `-([a-zA-Z_]|-?[a-zA-Z_][a-zA-Z0-9_-]+)`, full match). -/
def valid_option_name (s : String) : Bool :=
  match s.data with
  | ['-', c] => isLetterUnd c
  | '-' :: '-' :: c :: r => isLetterUnd c && !r.isEmpty && r.all isNameC
  | '-' :: c :: r => isLetterUnd c && !r.isEmpty && r.all isNameC
  | _ => false

/-- Mirrors `format_option_name` (regex `--?([a-zA-Z_][a-zA-Z0-9_-]+)`,
full match; returns the captured group or the empty string). -/
def format_option_name (s : String) : String :=
  match s.data with
  | '-' :: '-' :: c :: r =>
    if isLetterUnd c && !r.isEmpty && r.all isNameC then String.mk (c :: r) else ""
  | '-' :: c :: r =>
    if isLetterUnd c && !r.isEmpty && r.all isNameC then String.mk (c :: r) else ""
  | _ => ""

/-- Mirrors `format_flag_name` (regex `-([a-zA-Z_])`, full match); the
source returns an empty or single-character string, modelled as
`Option Char`. -/
def format_flag_name (s : String) : Option Char :=
  match s.data with
  | ['-', c] => if isLetterUnd c then some c else none
  | _ => none

/-- Mirrors `add_positional` (lines 70-80): name validity check, duplicate
check against positionals, conflict check against optional reference names,
then append to the order vector and the map. -/
def add_positional (p : ArgumentParser) (name help_text : String) :
    Except DeclError ArgumentParser :=
  if !valid_positional_name name then .error (.invalidPositionalName name)
  else if (find_key name p.positional_args).isSome then
    .error (.duplicatePositionalName name)
  else if (find_key name p.optional_args).isSome then
    .error (.positionalConflictsOptional name)
  else .ok { p with
    positional_order := p.positional_order ++ [name],
    positional_args := p.positional_args ++ [(name, ⟨"", help_text⟩)] }

/-- Mirrors the long-name-only `add_optional` overload (lines 100-113). -/
def add_optional_long (p : ArgumentParser) (long_name : String)
    (type : Optional_Type) (help_text : String) :
    Except DeclError (ArgumentParser × String) :=
  let formatted := format_option_name long_name
  if formatted = "" then .error (.invalidOptionalName long_name)
  else if (find_key formatted p.optional_args).isSome then
    .error (.duplicateOptionalName formatted)
  else if (find_key formatted p.positional_args).isSome then
    .error (.optionalConflictsPositional formatted)
  else .ok ({ p with
    optional_args := p.optional_args ++ [(formatted, ⟨' ', type, [], help_text⟩)],
    optional_order := p.optional_order ++ [formatted] }, formatted)

/-- Mirrors the flag-plus-long-name `add_optional` overload (lines 135-146):
flag validity and duplicate checks, then delegation to the long-name
overload (whose exception propagates before the flag map is touched),
then the flag binding and the write of the flag character into the
registered `Optional_Info`. -/
def add_optional_flag (p : ArgumentParser) (flag long_name : String)
    (type : Optional_Type) (help_text : String) :
    Except DeclError (ArgumentParser × String) :=
  match format_flag_name flag with
  | none => .error (.invalidFlagName flag)
  | some fc =>
    if (find_key fc p.flags).isSome then .error (.duplicateFlagName flag)
    else
      match add_optional_long p long_name type help_text with
      | .error e => .error e
      | .ok (p2, refname) =>
        .ok ({ p2 with
          flags := p2.flags ++ [(fc, refname)],
          optional_args := map_update p2.optional_args refname
            (fun i => { i with flag := fc }) }, refname)

/-- A parser record with every member empty (the state before the
constructor body runs). -/
def ArgumentParser.empty : ArgumentParser :=
  ⟨"", [], [], [], [], []⟩

/-- The default-constructed parser: the constructor registers the built-in
`-h`/`--help` FLAG optional (lines 51-53).  That registration cannot fail
on the empty state, so the error fallback below is unreachable. -/
def ArgumentParser.init : ArgumentParser :=
  match add_optional_flag ArgumentParser.empty "-h" "--help" .FLAG "" with
  | .ok pr => pr.1
  | .error _ => ArgumentParser.empty

/-- Mirrors `lookup_formatted_option_name` (lines 483-492): try the token as
a flag first and resolve through `m_flags` (throwing for an unknown flag),
otherwise strip the dashes with `format_option_name`. -/
def lookup_formatted_option_name (p : ArgumentParser) (option_name : String) :
    Except ScanError String :=
  match format_flag_name option_name with
  | some fc =>
    match find_key fc p.flags with
    | none => .error (.unknownOption option_name)
    | some ref => .ok ref
  | none => .ok (format_option_name option_name)

/-- The token walk of `parse_args` (lines 173-179) with `parse_optional_arg`
(lines 451-477) inlined so the recursion is structural on the token list.
`opt` is the local copy of `m_optional_args` the source mutates; `acc`
collects the positional candidates in encounter order. -/
def scan_loop (p : ArgumentParser) :
    List String → List (String × Optional_Info) → List String →
    Except ScanStop (List (String × Optional_Info) × List String)
  | [], opt, acc => .ok (opt, acc)
  | t :: rest, opt, acc =>
    if valid_option_name t then
      match lookup_formatted_option_name p t with
      | .error e => .error (.fail e)
      | .ok fname =>
        if fname = "help" then .error .help
        else
          match find_key fname opt with
          | none => .error (.fail (.unknownOption t))
          | some info =>
            if info.type = Optional_Type.FLAG then
              if info.values ≠ [] then .error (.fail (.duplicate t))
              else scan_loop p rest
                (map_update opt fname (fun i => { i with values := i.values ++ ["true"] })) acc
            else
              match rest with
              | [] => .error (.fail (.missingValue t))
              | v :: rest2 =>
                if valid_option_name v then .error (.fail (.missingValue t))
                else if info.type ≠ Optional_Type.APPEND ∧ info.values ≠ [] then
                  .error (.fail (.duplicate t))
                else scan_loop p rest2
                  (map_update opt fname (fun i => { i with values := i.values ++ [v] })) acc
    else scan_loop p rest opt (acc ++ [t])

/-- The positional assignment loop of `parse_args` (lines 184-186):
`m_positional_args[m_positional_order[i]].value = candidates[i]`.  The
`operator[]` semantics (default-construct when absent, though the key is
always present for registry-built parsers) is modelled by
`set_positional_value`. -/
def set_positional_value (pa : List (String × Positional_Info)) (name v : String) :
    List (String × Positional_Info) :=
  if (find_key name pa).isSome then
    map_update pa name (fun i => { i with value := v })
  else pa ++ [(name, ⟨v, ""⟩)]

/-- Fold of `set_positional_value` over the name/candidate pairs. -/
def assign_positionals :
    List (String × Positional_Info) → List (String × String) →
    List (String × Positional_Info)
  | pa, [] => pa
  | pa, (n, v) :: rest => assign_positionals (set_positional_value pa n v) rest

/-- Mirrors `parse_args` (lines 166-191).  `script` is `argv[0]`, `toks`
the remaining argument vector.  On success the returned `argc` is
`candidates - positionals + 1` and the leftover list is the rewritten
`argv[1..argc-1]`, exactly the source's index arithmetic.  On a scan error
the carried parser state is the receiver with only `m_scriptname` updated:
the source mutates a local copy of `m_optional_args` and commits it (and
the positional values) only after every check has passed. -/
def parse_args (p : ArgumentParser) (script : String) (toks : List String) :
    ScanOutcome :=
  match scan_loop { p with scriptname := script } toks p.optional_args [] with
  | .error .help => .helpExit { p with scriptname := script }
  | .error (.fail e) => .err { p with scriptname := script } e
  | .ok (opt, cands) =>
    if h : cands.length < p.positional_order.length then
      .err { p with scriptname := script }
        (.missingPositional (p.positional_order.get ⟨cands.length, h⟩))
    else
      .ok { p with
          scriptname := script,
          optional_args := opt,
          positional_args :=
            assign_positionals p.positional_args (p.positional_order.zip cands) }
        (cands.length - p.positional_order.length + 1)
        (cands.drop p.positional_order.length)

/-- Mirrors `has_arg` (lines 203-208). -/
def has_arg (p : ArgumentParser) (name : String) : Except ExtractErr Bool :=
  match find_key name p.optional_args with
  | none => .error .unknownArgument
  | some info => .ok (!info.values.isEmpty)

/-- Mirrors `arg_count` (lines 313-318). -/
def arg_count (p : ArgumentParser) (name : String) : Except ExtractErr Nat :=
  match find_key name p.optional_args with
  | none => .error .unknownArgument
  | some info => .ok info.values.length

/-- Mirrors `optional_arg` (lines 520-527): in-range index reads the stored
value; an empty value list yields the type-dependent absent sentinel
(`"false"` for FLAG, `""` otherwise); otherwise the index is out of range. -/
def optional_arg (info : Optional_Info) (idx : Nat) : Except ExtractErr String :=
  if h : idx < info.values.length then .ok (info.values.get ⟨idx, h⟩)
  else if info.values.isEmpty then
    .ok (if info.type = Optional_Type.FLAG then "false" else "")
  else .error .indexOutOfRange

/-- Outcome of the name/index resolution inside the private `arg_at`
(lines 498-515) before type conversion: either a string to convert or the
decision to return the caller's default value. -/
inductive Arg_Resolution
  | value (s : String)
  | useDefault
deriving DecidableEq, Repr

/-- The resolution logic of the private `arg_at` (lines 498-515): optionals
are tried first; an empty resolved string triggers the default-or-fail rule;
a name found among the positionals reads the stored value directly (the
index and the default are not consulted on that branch). -/
def arg_at_resolve (p : ArgumentParser) (name : String) (idx : Nat)
    (has_default : Bool) : Except ExtractErr Arg_Resolution :=
  match find_key name p.optional_args with
  | some info =>
    match optional_arg info idx with
    | .error e => .error e
    | .ok value =>
      if value = "" then
        if !has_default then .error .noValue else .ok .useDefault
      else .ok (.value value)
  | none =>
    match find_key name p.positional_args with
    | none => .error .unknownArgument
    | some pinfo => .ok (.value pinfo.value)

/-- The private `arg_at` composed with a `parse_string_arg` instantiation:
resolution followed by conversion of the resolved string, or the default
value when resolution said so.  The public `arg(name)`, `arg(name, dflt)`,
`arg_at(name, idx)` and `arg_at(name, idx, dflt)` are the instances
`has_default = false/true`, `idx = 0/idx`. -/
def arg_at_with {α : Type} (parse : String → Except ExtractErr α)
    (p : ArgumentParser) (name : String) (idx : Nat) (has_default : Bool)
    (default_val : α) : Except ExtractErr α :=
  match arg_at_resolve p name idx has_default with
  | .error e => .error e
  | .ok .useDefault => .ok default_val
  | .ok (.value v) => parse v

/-- Mirrors the `bool` overload of `parse_string_arg` (lines 535-541). -/
def parse_bool (value : String) : Except ExtractErr Bool :=
  if value = "true" then .ok true
  else if value = "false" then .ok false
  else .error .typeConversion

/-- Mirrors the `char` overload of `parse_string_arg` (lines 543-547);
the single-character test is on the character list (the source counts
bytes, which agrees on ASCII input). -/
def parse_char (value : String) : Except ExtractErr Char :=
  match value.data with
  | [c] => .ok c
  | _ => .error .typeConversion

/-- Mirrors the `std::string` overload of `parse_string_arg`
(lines 561-563): the value is returned verbatim. -/
def parse_stringT (value : String) : Except ExtractErr String :=
  .ok value

/-- The whitespace class skipped by the C `strto*` conversions. -/
def isSpaceC (c : Char) : Bool :=
  c = ' ' || c = '\t' || c = '\n' || c = '\x0b' || c = '\x0c' || c = '\r'

/-- Skip leading whitespace, as the C conversions do. -/
def dropSpaces (l : List Char) : List Char :=
  l.dropWhile isSpaceC

/-- Strip one optional sign character; the Bool is true for `'-'`. -/
def splitSign : List Char → Bool × List Char
  | '-' :: r => (true, r)
  | '+' :: r => (false, r)
  | l => (false, l)

/-- Value of a decimal digit string. -/
def digitsToNat (ds : List Char) : Nat :=
  ds.foldl (fun a c => 10 * a + (c.toNat - 48)) 0

/-- Model of `std::stoll` (base 10): optional whitespace and sign, then the
longest run of digits; no digits raises `invalid_argument`; a value outside
`[-2^63, 2^63-1]` raises `out_of_range`.  Trailing non-numeric characters
are ignored, as in the C library. -/
def cpp_stoll (s : String) : Except NumErr Int :=
  let sg := splitSign (dropSpaces s.data)
  let ds := sg.2.takeWhile isDigitC
  if ds.isEmpty then .error .invalid
  else
    let v : Int := if sg.1 then -(digitsToNat ds : Int) else (digitsToNat ds : Int)
    if v < -(2 ^ 63) ∨ v > 2 ^ 63 - 1 then .error .outOfRange else .ok v

/-- Model of `std::stoull` (base 10): as `cpp_stoll` but unsigned with
bound `2^64-1`, and — exactly as the C `strtoull` — a leading `'-'` sign
silently wraps the magnitude modulo `2^64` instead of failing. -/
def cpp_std_stoull (s : String) : Except NumErr Nat :=
  let sg := splitSign (dropSpaces s.data)
  let ds := sg.2.takeWhile isDigitC
  if ds.isEmpty then .error .invalid
  else
    let m := digitsToNat ds
    if m > 2 ^ 64 - 1 then .error .outOfRange
    else .ok (if sg.1 then (2 ^ 64 - m) % 2 ^ 64 else m)

/-- Mirrors the private `stoull` wrapper (lines 372-376): any string
containing `'-'` anywhere raises `out_of_range` before `std::stoull` runs,
preventing the silent wraparound. -/
def ArgumentParser.stoull (s : String) : Except NumErr Nat :=
  if '-' ∈ s.data then .error .outOfRange
  else cpp_std_stoull s

/-- Mirrors `parse_numeric_arg` (lines 568-580) instantiated at a signed
integer type with limits `[lo, hi]` and `convert_func = std::stoll`:
`invalid_argument` becomes the conversion error, `out_of_range` (from the
conversion or from the limit check) becomes the range error. -/
def parse_numeric_signed (lo hi : Int) (value : String) : Except ExtractErr Int :=
  match cpp_stoll value with
  | .error .invalid => .error .typeConversion
  | .error .outOfRange => .error .range
  | .ok v => if v < lo ∨ v > hi then .error .range else .ok v

/-- Mirrors `parse_numeric_arg` instantiated at an unsigned integer type
with maximum `hi` and `convert_func` the wrapped `stoull`; the
`n_value < lowest` comparison is identically false for unsigned types. -/
def parse_numeric_unsigned (hi : Nat) (value : String) : Except ExtractErr Nat :=
  match ArgumentParser.stoull value with
  | .error .invalid => .error .typeConversion
  | .error .outOfRange => .error .range
  | .ok v => if v > hi then .error .range else .ok v

/-- A `long double` value as produced by `strtold`: a finite value
(modelled as an exact rational), a signed infinity, or NaN. -/
inductive LDVal
  | finite (q : Rat)
  | inf (neg : Bool)
  | nan
deriving DecidableEq, Repr

/-- ASCII lower-casing, for the case-insensitive `inf`/`nan` forms. -/
def toLowerC (c : Char) : Char :=
  if 'A' ≤ c ∧ c ≤ 'Z' then Char.ofNat (c.toNat + 32) else c

/-- Case-insensitive test that `l` starts with the word `w`. -/
def ciHasLead (l w : List Char) : Bool :=
  (l.take w.length).map toLowerC == w

/-- Optional exponent part `[eE][+-]?digits` of a decimal float literal;
an exponent with no digits is not consumed (value 0). -/
def parse_exp : List Char → Int
  | [] => 0
  | c :: r =>
    if c = 'e' ∨ c = 'E' then
      let sg := splitSign r
      let ds := sg.2.takeWhile isDigitC
      if ds.isEmpty then 0
      else if sg.1 then -(digitsToNat ds : Int) else (digitsToNat ds : Int)
    else 0

/-- Model of `std::stold`: optional whitespace and sign, then either a
case-insensitive `inf`/`nan` form or a decimal significand (a nonempty
digit sequence optionally containing one `'.'`) with optional exponent.
`invalid_argument` is raised exactly when no such form starts the string.
Deviations from the C library, none of which the theorems below touch:
finite values are kept as exact rationals (no 80-bit rounding, no ERANGE
underflow), and hexadecimal significands are read as their leading
decimal part. -/
def cpp_stold (s : String) : Except NumErr LDVal :=
  let sg := splitSign (dropSpaces s.data)
  if ciHasLead sg.2 ['i', 'n', 'f'] then .ok (.inf sg.1)
  else if ciHasLead sg.2 ['n', 'a', 'n'] then .ok .nan
  else
    let ip := sg.2.takeWhile isDigitC
    let r1 := sg.2.dropWhile isDigitC
    let fp := match r1 with
      | '.' :: r => r.takeWhile isDigitC
      | _ => []
    let rest2 := match r1 with
      | '.' :: r => r.dropWhile isDigitC
      | _ => r1
    if ip.isEmpty ∧ fp.isEmpty then .error .invalid
    else
      let mag : Rat := (digitsToNat ip : Rat) + (digitsToNat fp : Rat) / (10 ^ fp.length)
      .ok (.finite ((if sg.1 then -mag else mag) * (10 : Rat) ^ (parse_exp rest2)))

/-- Mirrors `parse_numeric_arg` instantiated at a floating-point type whose
largest finite value is `maxq` (`lowest = -maxq`) and
`convert_func = std::stold`: an infinity fails the limit check (range
error), NaN passes it (both comparisons are false). -/
def parse_numeric_float (maxq : Rat) (value : String) : Except ExtractErr LDVal :=
  match cpp_stold value with
  | .error .invalid => .error .typeConversion
  | .error .outOfRange => .error .range
  | .ok (.finite q) => if q < -maxq ∨ q > maxq then .error .range else .ok (.finite q)
  | .ok (.inf _) => .error .range
  | .ok .nan => .ok .nan

/-- `std::numeric_limits<long long>::min()`. -/
def LLONG_MIN : Int := -(2 ^ 63)

/-- `std::numeric_limits<long long>::max()`. -/
def LLONG_MAX : Int := 2 ^ 63 - 1

/-- `std::numeric_limits<std::uint32_t>::max()`. -/
def UINT32_MAX : Nat := 2 ^ 32 - 1

/-- Looking up the updated key after `map_update` maps the old value. -/
theorem find_key_map_update_eq {α β : Type} [DecidableEq α]
    (l : List (α × β)) (k : α) (f : β → β) :
    find_key k (map_update l k f) = (find_key k l).map f := by
  induction l with
  | nil => rfl
  | cons e rest ih =>
    by_cases h : k = e.1
    · simp [map_update, find_key, h] at ih ⊢
    · have h2 : ¬ e.1 = k := fun hh => h hh.symm
      simp only [map_update, List.map_cons, if_neg h2, find_key, if_neg h]
      exact ih

/-- Looking up a different key after `map_update` is unchanged. -/
theorem find_key_map_update_ne {α β : Type} [DecidableEq α]
    (l : List (α × β)) (k m : α) (f : β → β) (h : ¬ m = k) :
    find_key m (map_update l k f) = find_key m l := by
  induction l with
  | nil => rfl
  | cons e rest ih =>
    by_cases he : e.1 = k
    · have hm : ¬ m = e.1 := fun hh => h (hh.trans he)
      simp only [map_update, List.map_cons, if_pos he, find_key, if_neg hm] at ih ⊢
      exact ih
    · by_cases hm : m = e.1
      · simp [map_update, find_key, he, hm]
      · simp only [map_update, List.map_cons, if_neg he, find_key, if_neg hm] at ih ⊢
        exact ih

/-- Lookup distributes over an append when the key is absent on the left. -/
theorem find_key_append_of_none {α β : Type} [DecidableEq α]
    (k : α) (l1 l2 : List (α × β)) (h : find_key k l1 = none) :
    find_key k (l1 ++ l2) = find_key k l2 := by
  induction l1 with
  | nil => rfl
  | cons e rest ih =>
    by_cases hk : k = e.1
    · simp [find_key, hk] at h
    · simp only [find_key, if_neg hk, List.cons_append] at h ⊢
      exact ih h

/-- After `set_positional_value pa n v`, key `n` maps to an entry whose
value field is `v`. -/
theorem find_key_set_value_self (pa : List (String × Positional_Info)) (n v : String) :
    ∃ info, find_key n (set_positional_value pa n v) = some info ∧ info.value = v := by
  unfold set_positional_value
  rcases hf : find_key n pa with _ | i
  · rw [if_neg (by simp [hf])]
    rw [find_key_append_of_none n pa _ hf]
    exact ⟨⟨v, ""⟩, by simp [find_key], rfl⟩
  · rw [if_pos (by simp [hf])]
    refine ⟨{ i with value := v }, ?_, rfl⟩
    rw [find_key_map_update_eq, hf]
    rfl

/-- `set_positional_value` at another key leaves a lookup unchanged. -/
theorem find_key_set_value_ne (pa : List (String × Positional_Info)) (n v m : String)
    (h : ¬ m = n) :
    find_key m (set_positional_value pa n v) = find_key m pa := by
  unfold set_positional_value
  rcases hf : find_key n pa with _ | i
  · rw [if_neg (by simp [hf])]
    induction pa with
    | nil => simp [find_key, h]
    | cons e rest ih =>
      by_cases hm : m = e.1
      · simp [find_key, hm]
      · simp only [find_key, List.cons_append, if_neg hm] at *
        exact ih (by revert hf; unfold find_key; split <;> simp_all)
  · rw [if_pos (by simp [hf])]
    exact find_key_map_update_ne pa n m _ h

/-- A key not among the assigned names is untouched by `assign_positionals`. -/
theorem find_key_assign_of_not_mem (pairs : List (String × String))
    (pa : List (String × Positional_Info)) (n : String)
    (h : n ∉ pairs.map Prod.fst) :
    find_key n (assign_positionals pa pairs) = find_key n pa := by
  induction pairs generalizing pa with
  | nil => rfl
  | cons hd tl ih =>
    simp only [List.map_cons, List.mem_cons, not_or] at h
    show find_key n (assign_positionals (set_positional_value pa hd.1 hd.2) tl) = _
    rw [ih _ h.2, find_key_set_value_ne _ _ _ _ h.1]

/-- Each assigned pair is visible after `assign_positionals` when the
assigned names are distinct. -/
theorem find_key_assign_mem (pairs : List (String × String))
    (pa : List (String × Positional_Info)) (n v : String)
    (hnd : (pairs.map Prod.fst).Nodup) (hmem : (n, v) ∈ pairs) :
    ∃ info, find_key n (assign_positionals pa pairs) = some info ∧ info.value = v := by
  induction pairs generalizing pa with
  | nil => cases hmem
  | cons hd tl ih =>
    rcases List.mem_cons.mp hmem with heq | hmem2
    · subst heq
      show ∃ info, find_key n (assign_positionals (set_positional_value pa n v) tl) = some info ∧ _
      have hnotmem : n ∉ tl.map Prod.fst := by
        simpa using (List.nodup_cons.mp hnd).1
      rw [find_key_assign_of_not_mem tl _ n hnotmem]
      exact find_key_set_value_self pa n v
    · exact ih (set_positional_value pa hd.1 hd.2) (List.nodup_cons.mp hnd).2 hmem2

/-- Membership in a zip from simultaneous index hits. -/
theorem mem_zip_of_get {α β : Type} (l1 : List α) (l2 : List β) (i : Nat) (a : α) (b : β)
    (h1 : l1.get? i = some a) (h2 : l2.get? i = some b) : (a, b) ∈ l1.zip l2 := by
  induction l1 generalizing l2 i with
  | nil => simp at h1
  | cons x xs ih =>
    cases l2 with
    | nil => simp at h2
    | cons y ys =>
      cases i with
      | zero =>
        simp only [List.get?] at h1 h2
        cases h1; cases h2
        exact List.mem_cons_self _ _
      | succ n =>
        simp only [List.get?] at h1 h2
        exact List.mem_cons_of_mem _ (ih ys n h1 h2)

/-- C1 (counterexample): the built-in `help` FLAG optional with empty
matchedValues: extraction as bool with no fallback returns `false` (the
parsed sentinel) instead of failing with NoValueError, and extraction with
fallback `true` still returns `false` instead of the fallback. -/
theorem claim_C1_counterexample :
    arg_at_with parse_bool ArgumentParser.init "help" 0 true true = .ok false ∧
    arg_at_with parse_bool ArgumentParser.init "help" 0 false false ≠ .error .noValue :=
  ⟨rfl, fun h => nomatch h⟩

/-- C1 (amended): for an optional argument with empty matchedValues,
extraction uses the type-dependent absent sentinel (`"false"` for Flag
kind, `""` otherwise); the fallback rule (return the supplied fallback,
else fail with NoValueError) applies exactly to the non-Flag kinds, whose
sentinel is the empty string, while for Flag kind the sentinel `"false"`
is parsed directly as the requested type regardless of any fallback. -/
theorem claim_C1_amended (p : ArgumentParser) (name : String) (info : Optional_Info)
    {α : Type} (parse : String → Except ExtractErr α) (idx : Nat) (d : α)
    (hfind : find_key name p.optional_args = some info)
    (hempty : info.values = []) :
    (info.type ≠ Optional_Type.FLAG →
       arg_at_with parse p name idx false d = .error .noValue ∧
       arg_at_with parse p name idx true d = .ok d) ∧
    (info.type = Optional_Type.FLAG →
       ∀ hd : Bool, arg_at_with parse p name idx hd d = parse "false") := by
  have hoa : optional_arg info idx =
      .ok (if info.type = Optional_Type.FLAG then "false" else "") := by
    unfold optional_arg
    rw [hempty]
    simp
  constructor
  · intro hty
    constructor <;>
      simp [arg_at_with, arg_at_resolve, hfind, hoa, hty]
  · intro hty hd
    simp [arg_at_with, arg_at_resolve, hfind, hoa, hty]

/-- C1 (witness): the amended theorem applied to the fresh parser's `help`
optional. -/
theorem claim_C1_witness :
    find_key "help" ArgumentParser.init.optional_args =
      some ⟨'h', Optional_Type.FLAG, [], ""⟩ ∧
    arg_at_with parse_bool ArgumentParser.init "help" 2 true false = parse_bool "false" :=
  ⟨rfl, (claim_C1_amended ArgumentParser.init "help" ⟨'h', Optional_Type.FLAG, [], ""⟩
    parse_bool 2 false rfl rfl).2 rfl true⟩

/-- Registry with one declared positional `file` (for C2). -/
def C2_decl : ArgumentParser :=
  match add_positional ArgumentParser.init "file" "" with
  | .ok p => p
  | .error _ => ArgumentParser.init

/-- The C2 registry after scanning `["input.txt"]`. -/
def C2_scanned : ArgumentParser :=
  match parse_args C2_decl "prog" ["input.txt"] with
  | .ok p _ _ => p
  | _ => C2_decl

/-- C2 (counterexample): extraction targeting the positional `file` at
index 3 still returns the recorded value — the index is not required to
be 0. -/
theorem claim_C2_counterexample :
    parse_args C2_decl "prog" ["input.txt"] = ScanOutcome.ok C2_scanned 1 [] ∧
    arg_at_with parse_stringT C2_scanned "file" 3 false "" = .ok "input.txt" :=
  ⟨rfl, rfl⟩

/-- C2 (amended): extraction targeting a positional argument ignores the
index entirely: for every index and every fallback setting, `arg_at`
parses the recorded value; the fallback rule is never applied on the
positional branch (an absent value is parsed as the empty string rather
than producing NoValueError or the fallback). -/
theorem claim_C2_amended (p : ArgumentParser) (name : String) (pinfo : Positional_Info)
    {α : Type} (parse : String → Except ExtractErr α) (idx : Nat) (hd : Bool) (d : α)
    (hopt : find_key name p.optional_args = none)
    (hpos : find_key name p.positional_args = some pinfo) :
    arg_at_with parse p name idx hd d = parse pinfo.value := by
  simp [arg_at_with, arg_at_resolve, hopt, hpos]

/-- C2 (witness): the amended theorem applied to the scanned C2 registry at
index 5 with a fallback, which is ignored. -/
theorem claim_C2_witness :
    find_key "file" C2_scanned.optional_args = none ∧
    find_key "file" C2_scanned.positional_args = some ⟨"input.txt", ""⟩ ∧
    arg_at_with parse_stringT C2_scanned "file" 5 true "zz" = .ok "input.txt" :=
  ⟨rfl, rfl,
    (claim_C2_amended C2_scanned "file" ⟨"input.txt", ""⟩ parse_stringT 5 true "zz"
      rfl rfl).trans rfl⟩

/-- C3 (counterexample): `"12abc"` contains non-numeric characters yet
signed extraction converts it successfully to 12 (the C conversions parse
the longest numeric lead); and for unsigned extraction the non-numeric
string `"abc-"` fails with RangeError, not TypeConversionError, because
the `'-'` guard fires first. -/
theorem claim_C3_counterexample :
    parse_numeric_signed LLONG_MIN LLONG_MAX "12abc" = .ok 12 ∧
    parse_numeric_unsigned UINT32_MAX "abc-" = .error .range :=
  ⟨rfl, rfl⟩

/-- A digit character is none of the whitespace characters skipped by the
C conversions. -/
theorem digit_not_space (c : Char) (h : isDigitC c = true) : isSpaceC c = false := by
  by_contra hs
  rw [Bool.not_eq_false] at hs
  simp only [isSpaceC, Bool.or_eq_true, decide_eq_true_eq] at hs
  rcases hs with ((((rfl | rfl) | rfl) | rfl) | rfl) | rfl <;> revert h <;> decide

/-- A digit character is neither sign character. -/
theorem digit_not_sign (c : Char) (h : isDigitC c = true) : ¬ c = '-' ∧ ¬ c = '+' := by
  constructor <;> rintro rfl <;> revert h <;> decide

/-- `splitSign` consumes nothing when the head is not a sign character. -/
theorem splitSign_cons_of_ne (c : Char) (l : List Char)
    (h1 : ¬ c = '-') (h2 : ¬ c = '+') : splitSign (c :: l) = (false, c :: l) := by
  unfold splitSign
  split
  · next r heq => rw [List.cons.injEq] at heq; exact absurd heq.1 h1
  · next r heq => rw [List.cons.injEq] at heq; exact absurd heq.1 h2
  · rfl

/-- `takeWhile` passes over a fully satisfying left part of an append. -/
theorem takeWhile_all_append (p : Char → Bool) (l1 l2 : List Char)
    (h : l1.all p = true) : (l1 ++ l2).takeWhile p = l1 ++ l2.takeWhile p := by
  induction l1 with
  | nil => rfl
  | cons a t ih =>
    rw [List.all_cons, Bool.and_eq_true] at h
    simp [List.takeWhile_cons, h.1, ih h.2]

/-- `std::stoll` reads only the numeric lead: appending trailing characters
whose first character is not a digit to a nonempty digit string leaves the
conversion result unchanged. -/
theorem cpp_stoll_append_junk (ds junk : List Char)
    (hne : ds ≠ []) (hds : ds.all isDigitC = true)
    (hjunk : ∀ c, junk.head? = some c → isDigitC c = false) :
    cpp_stoll (String.mk (ds ++ junk)) = cpp_stoll (String.mk ds) := by
  obtain ⟨d, ds', rfl⟩ := List.exists_cons_of_ne_nil hne
  have hd : isDigitC d = true := by
    rw [List.all_cons, Bool.and_eq_true] at hds
    exact hds.1
  have hdrop1 : dropSpaces (d :: (ds' ++ junk)) = d :: (ds' ++ junk) := by
    unfold dropSpaces
    rw [List.dropWhile_cons, digit_not_space d hd]
    rfl
  have hdrop2 : dropSpaces (d :: ds') = d :: ds' := by
    unfold dropSpaces
    rw [List.dropWhile_cons, digit_not_space d hd]
    rfl
  have hnsign := digit_not_sign d hd
  have hsplit1 : splitSign (d :: (ds' ++ junk)) = (false, d :: (ds' ++ junk)) :=
    splitSign_cons_of_ne _ _ hnsign.1 hnsign.2
  have hsplit2 : splitSign (d :: ds') = (false, d :: ds') :=
    splitSign_cons_of_ne _ _ hnsign.1 hnsign.2
  have hjtw : junk.takeWhile isDigitC = [] := by
    cases junk with
    | nil => rfl
    | cons c t =>
      rw [List.takeWhile_cons, hjunk c rfl]
      rfl
  have htake1 : (d :: (ds' ++ junk)).takeWhile isDigitC = d :: ds' := by
    show ((d :: ds') ++ junk).takeWhile isDigitC = d :: ds'
    rw [takeWhile_all_append _ _ _ hds, hjtw, List.append_nil]
  have htake2 : (d :: ds').takeWhile isDigitC = d :: ds' := by
    have h2 := takeWhile_all_append isDigitC (d :: ds') [] hds
    simpa using h2
  unfold cpp_stoll
  dsimp only
  rw [List.cons_append, hdrop1, hdrop2, hsplit1, hsplit2]
  dsimp only
  rw [htake1, htake2]

/-- C3 (amended): for every numeric extraction (signed, unsigned or
floating), a stored string with no convertible numeric lead fails with
TypeConversionError, distinct from RangeError — except that unsigned
extraction of any string containing `'-'` fails with RangeError instead;
a string with a convertible numeric lead is not rejected for trailing
non-numeric characters: for signed extraction, a digit string followed by
trailing characters that do not extend the numeric form (the first
trailing character is not a digit) extracts exactly as the digit string
alone — the lead's value is converted and checked against the width as if
the trailing characters were absent. -/
theorem claim_C3_amended :
    (∀ (s : String) (lo hi : Int), cpp_stoll s = .error .invalid →
       parse_numeric_signed lo hi s = .error .typeConversion) ∧
    (∀ (s : String) (uhi : Nat), ArgumentParser.stoull s = .error .invalid →
       parse_numeric_unsigned uhi s = .error .typeConversion) ∧
    (∀ (s : String) (uhi : Nat), '-' ∈ s.data →
       parse_numeric_unsigned uhi s = .error .range) ∧
    (∀ (s : String) (maxq : Rat), cpp_stold s = .error .invalid →
       parse_numeric_float maxq s = .error .typeConversion) ∧
    ExtractErr.typeConversion ≠ ExtractErr.range ∧
    (∀ (ds junk : List Char) (lo hi : Int), ds ≠ [] → ds.all isDigitC = true →
       (∀ c, junk.head? = some c → isDigitC c = false) →
       parse_numeric_signed lo hi (String.mk (ds ++ junk)) =
         parse_numeric_signed lo hi (String.mk ds)) := by
  refine ⟨?_, ?_, ?_, ?_, by decide, ?_⟩
  · intro s lo hi h
    simp [parse_numeric_signed, h]
  · intro s uhi h
    simp [parse_numeric_unsigned, h]
  · intro s uhi h
    simp [parse_numeric_unsigned, ArgumentParser.stoull, h]
  · intro s maxq h
    simp [parse_numeric_float, h]
  · intro ds junk lo hi hne hds hjunk
    unfold parse_numeric_signed
    rw [cpp_stoll_append_junk ds junk hne hds hjunk]

/-- C3 (witness): the amended theorem applied to `"abc"` (no numeric lead)
for the signed case, `"x-y"` (contains a dash) for the unsigned case, and
the digit lead `"12"` with trailing junk `"abc"` for the lead-only
clause. -/
theorem claim_C3_witness :
    cpp_stoll "abc" = .error .invalid ∧
    parse_numeric_signed 0 10 "abc" = .error .typeConversion ∧
    parse_numeric_unsigned 255 "x-y" = .error .range ∧
    parse_numeric_signed LLONG_MIN LLONG_MAX
        (String.mk (['1', '2'] ++ ['a', 'b', 'c'])) =
      parse_numeric_signed LLONG_MIN LLONG_MAX (String.mk ['1', '2']) :=
  ⟨rfl, claim_C3_amended.1 "abc" 0 10 rfl,
    claim_C3_amended.2.2.1 "x-y" 255 (by decide),
    claim_C3_amended.2.2.2.2.2 ['1', '2'] ['a', 'b', 'c'] LLONG_MIN LLONG_MAX
      (by decide) (by decide) (fun c hc => by cases hc; decide)⟩

/-- C4 (counterexample): on a freshly constructed registry the name
`"help"` matches `\w[a-zA-Z0-9_-]*`, yet the first `declarePositional`
call fails with ConflictError because the constructor auto-registers the
optional `help`. -/
theorem claim_C4_counterexample :
    valid_positional_name "help" = true ∧
    add_positional ArgumentParser.init "help" "" =
      .error (.positionalConflictsOptional "help") :=
  ⟨rfl, rfl⟩

/-- C4 (amended): on a freshly constructed registry (which auto-registers
the optional `help`), for every name matching `\w[a-zA-Z0-9_-]*` other
than `"help"`, `declarePositional` succeeds exactly once — the first call
succeeds and appends the name to the positional order, and a second call
with the same name fails with ConflictError; and in general
`declarePositional` fails (with ConflictError) exactly when the name is
invalid, already a positional name, or already an optional reference
name. -/
theorem claim_C4_amended (n h1 h2 : String)
    (hv : valid_positional_name n = true) (hne : n ≠ "help") :
    (∃ p1, add_positional ArgumentParser.init n h1 = .ok p1 ∧
       p1.positional_order = [n] ∧
       add_positional p1 n h2 = .error (.duplicatePositionalName n)) ∧
    (∀ (p : ArgumentParser) (name ht : String),
       (∃ e, add_positional p name ht = .error e) ↔
         (valid_positional_name name = false ∨
          (find_key name p.positional_args).isSome = true ∨
          (find_key name p.optional_args).isSome = true)) := by
  constructor
  · have hinitpos : ArgumentParser.init.positional_args = [] := rfl
    have hinitopt : find_key n ArgumentParser.init.optional_args = none := by
      show (if n = "help" then some (⟨'h', Optional_Type.FLAG, [], ""⟩ : Optional_Info)
            else none) = none
      rw [if_neg hne]
    refine ⟨{ ArgumentParser.init with
        positional_order := [n],
        positional_args := [(n, ⟨"", h1⟩)] }, ?_, rfl, ?_⟩
    · unfold add_positional
      rw [hinitpos, hinitopt]
      simp [hv]
      rfl
    · unfold add_positional
      simp [hv, find_key]
  · intro p name ht
    unfold add_positional
    by_cases h1v : valid_positional_name name
    · by_cases h2p : (find_key name p.positional_args).isSome
      · simp [h1v, h2p]
      · by_cases h3o : (find_key name p.optional_args).isSome
        · simp [h1v, h2p, h3o]
        · simp [h1v, h2p, h3o]
    · simp [h1v, Bool.of_not_eq_true h1v]

/-- C4 (witness): the amended theorem applied to the name `"file"`. -/
theorem claim_C4_witness :
    valid_positional_name "file" = true ∧ "file" ≠ "help" ∧
    (∃ p1, add_positional ArgumentParser.init "file" "x" = .ok p1 ∧
       p1.positional_order = ["file"] ∧
       add_positional p1 "file" "y" = .error (.duplicatePositionalName "file")) :=
  ⟨rfl, by decide, (claim_C4_amended "file" "x" "y" rfl (by decide)).1⟩

/-- Registry with one declared SINGLE optional `--count` (for C5). -/
def C5_decl : ArgumentParser :=
  match add_optional_long ArgumentParser.init "--count" Optional_Type.SINGLE "" with
  | .ok pr => pr.1
  | .error _ => ArgumentParser.init

/-- Result of scanning `--count -5` and extracting `count` as a 32-bit
unsigned integer (for C5). -/
def C5_extracted : Except ExtractErr Nat :=
  match parse_args C5_decl "prog" ["--count", "-5"] with
  | .ok p _ _ => arg_at_with (parse_numeric_unsigned UINT32_MAX) p "count" 0 false 0
  | _ => .ok 0

/-- C5: every stored string with a leading `'-'` makes unsigned extraction
fail with RangeError (the wrapper rejects it before numeric parsing);
plain `std::stoull` would instead have wrapped `"-5"` to `2^64 - 5`; and
in the concrete scenario — scan `--count -5`, extract `count` unsigned —
the result is the RangeError, never a wrapped positive value. -/
theorem claim_C5_ok :
    (∀ (t : String) (uhi : Nat),
       parse_numeric_unsigned uhi ("-" ++ t) = .error .range) ∧
    cpp_std_stoull "-5" = .ok (2 ^ 64 - 5) ∧
    C5_extracted = .error .range := by
  refine ⟨?_, rfl, rfl⟩
  intro t uhi
  have hmem : '-' ∈ ("-" ++ t).data := by
    rw [String.data_append]
    exact List.mem_append_left _ (by simp)
  simp [parse_numeric_unsigned, ArgumentParser.stoull, hmem]

/-- Unfolding of `parse_args` on a successful scan: the optional map copy
is committed, the positionals are assigned from the candidates, and argc
and the leftover slots follow the source's index arithmetic. -/
theorem parse_args_ok_eq (p : ArgumentParser) (script : String) (toks : List String)
    (opt : List (String × Optional_Info)) (cands : List String)
    (hscan : scan_loop { p with scriptname := script } toks p.optional_args [] =
       .ok (opt, cands))
    (hn : ¬ cands.length < p.positional_order.length) :
    parse_args p script toks = ScanOutcome.ok
      { p with
          scriptname := script,
          optional_args := opt,
          positional_args :=
            assign_positionals p.positional_args (p.positional_order.zip cands) }
      (cands.length - p.positional_order.length + 1)
      (cands.drop p.positional_order.length) := by
  unfold parse_args
  rw [hscan]
  dsimp only
  rw [dif_neg hn]

/-- C6: on every successful scan, the first `len(declaredPositionals)`
candidate tokens collected by the walk are assigned to the declared
positionals in declaration order, the remaining candidates are returned
as the leftover tokens in encounter order, and the updated argc equals
the number of leftovers plus one. -/
theorem claim_C6 (p : ArgumentParser) (script : String) (toks : List String)
    (opt : List (String × Optional_Info)) (cands : List String)
    (hscan : scan_loop { p with scriptname := script } toks p.optional_args [] =
       .ok (opt, cands))
    (hlen : p.positional_order.length ≤ cands.length)
    (hnd : p.positional_order.Nodup) :
    ∃ p', parse_args p script toks = ScanOutcome.ok p'
        (cands.length - p.positional_order.length + 1)
        (cands.drop p.positional_order.length) ∧
      cands.length - p.positional_order.length + 1 =
        (cands.drop p.positional_order.length).length + 1 ∧
      ∀ (i : Nat) (name : String), p.positional_order.get? i = some name →
        ∃ info, find_key name p'.positional_args = some info ∧
          cands.get? i = some info.value := by
  refine ⟨_, parse_args_ok_eq p script toks opt cands hscan (not_lt.mpr hlen), ?_, ?_⟩
  · rw [List.length_drop]
  · intro i name hname
    have hilt : i < p.positional_order.length := by
      by_contra hge
      rw [List.get?_eq_none.mpr (le_of_not_lt hge)] at hname
      cases hname
    have hic : i < cands.length := lt_of_lt_of_le hilt hlen
    have hv : cands.get? i = some (cands.get ⟨i, hic⟩) := List.get?_eq_get hic
    have hmem : (name, cands.get ⟨i, hic⟩) ∈ p.positional_order.zip cands :=
      mem_zip_of_get _ _ i _ _ hname hv
    have hnd2 : ((p.positional_order.zip cands).map Prod.fst).Nodup := by
      rw [List.map_fst_zip _ _ hlen]
      exact hnd
    obtain ⟨info, hfi, hval⟩ :=
      find_key_assign_mem _ p.positional_args name (cands.get ⟨i, hic⟩) hnd2 hmem
    exact ⟨info, hfi, by rw [hv, hval]⟩

/-- Registry with one declared positional `file` (for the C6 witness). -/
def C6_decl : ArgumentParser :=
  match add_positional ArgumentParser.init "file" "" with
  | .ok p => p
  | .error _ => ArgumentParser.init

/-- C6 (witness): the theorem applied to the concrete scan of
`["a", "b", "c"]` against one declared positional: `a` is assigned to
`file`, `b` and `c` are the leftovers, and argc becomes 3. -/
theorem claim_C6_witness :
    scan_loop { C6_decl with scriptname := "prog" } ["a", "b", "c"]
      C6_decl.optional_args [] = .ok (C6_decl.optional_args, ["a", "b", "c"]) ∧
    (∃ p', parse_args C6_decl "prog" ["a", "b", "c"] = ScanOutcome.ok p' 3 ["b", "c"] ∧
      (3 : Nat) = 3 ∧
      ∀ (i : Nat) (name : String), C6_decl.positional_order.get? i = some name →
        ∃ info, find_key name p'.positional_args = some info ∧
          ["a", "b", "c"].get? i = some info.value) :=
  ⟨rfl, claim_C6 C6_decl "prog" ["a", "b", "c"] C6_decl.optional_args ["a", "b", "c"]
    rfl (by decide) (by decide)⟩

/-- C7: when the walk collects fewer candidates than there are declared
positionals, `parse_args` fails with MissingPositionalError naming the
first positional declaration, in declaration order, without a
corresponding candidate (the one at index `candidates.length`). -/
theorem claim_C7 (p : ArgumentParser) (script : String) (toks : List String)
    (opt : List (String × Optional_Info)) (cands : List String)
    (hscan : scan_loop { p with scriptname := script } toks p.optional_args [] =
       .ok (opt, cands))
    (hlt : cands.length < p.positional_order.length) :
    parse_args p script toks = ScanOutcome.err { p with scriptname := script }
      (.missingPositional (p.positional_order.get ⟨cands.length, hlt⟩)) := by
  unfold parse_args
  rw [hscan]
  dsimp only
  rw [dif_pos hlt]

/-- Registry with two declared positionals `a1`, `a2` (for the C7 witness). -/
def C7_decl : ArgumentParser :=
  match add_positional ArgumentParser.init "a1" "" with
  | .ok p =>
    (match add_positional p "a2" "" with
     | .ok p2 => p2
     | .error _ => p)
  | .error _ => ArgumentParser.init

/-- C7 (witness): the theorem applied to the concrete scan of one token
against two declared positionals: the error names `a2`, the first
declaration with no candidate. -/
theorem claim_C7_witness :
    parse_args C7_decl "prog" ["x"] =
      ScanOutcome.err { C7_decl with scriptname := "prog" }
        (.missingPositional "a2") :=
  claim_C7 C7_decl "prog" ["x"] C7_decl.optional_args ["x"] rfl (by decide)

/-- Registry with one declared APPEND optional `--tag` (for C8). -/
def C8_decl : ArgumentParser :=
  match add_optional_long ArgumentParser.init "--tag" Optional_Type.APPEND "" with
  | .ok pr => pr.1
  | .error _ => ArgumentParser.init

/-- The C8 registry after scanning `["--tag", "a", "--tag", "b"]`. -/
def C8_scanned : ArgumentParser :=
  match parse_args C8_decl "prog" ["--tag", "a", "--tag", "b"] with
  | .ok p _ _ => p
  | _ => C8_decl

/-- C8: the Append round-trip — after declaring the APPEND option `--tag`
and scanning `["--tag", "a", "--tag", "b"]`, the scan succeeds with no
leftovers, `count("tag")` is 2, and string extraction returns `"a"` at
index 0 and `"b"` at index 1: matchedValues accumulated one entry per
occurrence in encounter order. -/
theorem claim_C8 :
    parse_args C8_decl "prog" ["--tag", "a", "--tag", "b"] =
      ScanOutcome.ok C8_scanned 1 [] ∧
    find_key "tag" C8_scanned.optional_args =
      some ⟨' ', Optional_Type.APPEND, ["a", "b"], ""⟩ ∧
    arg_count C8_scanned "tag" = .ok 2 ∧
    arg_at_with parse_stringT C8_scanned "tag" 0 false "" = .ok "a" ∧
    arg_at_with parse_stringT C8_scanned "tag" 1 false "" = .ok "b" :=
  ⟨rfl, rfl, rfl, rfl, rfl⟩

/-- C9: scan atomicity — whenever `parse_args` fails with a scanning error
(unknown option, missing value, duplicate, or missing positional), the
parser state carried at the throw has the optional-argument map and the
positional map unchanged: the walk mutates only a copy of the optional
map, and it and the positional values are committed only after every
check has passed. -/
theorem claim_C9 (p : ArgumentParser) (script : String) (toks : List String)
    (p' : ArgumentParser) (e : ScanError)
    (h : parse_args p script toks = ScanOutcome.err p' e) :
    p'.optional_args = p.optional_args ∧ p'.positional_args = p.positional_args := by
  unfold parse_args at h
  rcases hs : scan_loop { p with scriptname := script } toks p.optional_args [] with
    st | pr
  · rw [hs] at h
    cases st with
    | help => cases h
    | fail e2 =>
      dsimp only at h
      cases h
      exact ⟨rfl, rfl⟩
  · rw [hs] at h
    obtain ⟨opt, cands⟩ := pr
    dsimp only at h
    by_cases hlt : cands.length < p.positional_order.length
    · rw [dif_pos hlt] at h
      cases h
      exact ⟨rfl, rfl⟩
    · rw [dif_neg hlt] at h
      cases h

/-- The parser state carried by the failing C9 witness scan. -/
def C9_err_state : ArgumentParser :=
  { ArgumentParser.init with scriptname := "prog" }

/-- C9 (witness): the theorem applied to a scan of the unknown option
`--nope` against a fresh registry. -/
theorem claim_C9_witness :
    parse_args ArgumentParser.init "prog" ["--nope"] =
      ScanOutcome.err C9_err_state (.unknownOption "--nope") ∧
    C9_err_state.optional_args = ArgumentParser.init.optional_args :=
  ⟨rfl, (claim_C9 ArgumentParser.init "prog" ["--nope"] C9_err_state
    (.unknownOption "--nope") rfl).1⟩

/-- C10: a stored empty-string value is treated as absent by extraction:
with no fallback the call fails with NoValueError, with a fallback the
fallback is returned instead of the stored empty string — even though
`has_arg` on the same name reports true and `arg_count` reports the
entry. -/
theorem claim_C10 (p : ArgumentParser) (name : String) (info : Optional_Info)
    (idx : Nat) {α : Type} (parse : String → Except ExtractErr α) (d : α)
    (hfind : find_key name p.optional_args = some info)
    (hidx : info.values.get? idx = some "") :
    arg_at_with parse p name idx false d = .error .noValue ∧
    arg_at_with parse p name idx true d = .ok d ∧
    has_arg p name = .ok true ∧
    arg_count p name = .ok info.values.length ∧
    0 < info.values.length := by
  have hlt : idx < info.values.length := by
    by_contra hge
    rw [List.get?_eq_none.mpr (le_of_not_lt hge)] at hidx
    cases hidx
  have hval : info.values.get ⟨idx, hlt⟩ = "" := by
    rw [List.get?_eq_get hlt] at hidx
    exact Option.some.inj hidx
  have hoa : optional_arg info idx = .ok "" := by
    unfold optional_arg
    rw [dif_pos hlt, hval]
  have hne : info.values ≠ [] := by
    intro hnil
    rw [hnil] at hlt
    cases hlt
  refine ⟨?_, ?_, ?_, ?_, ?_⟩
  · simp [arg_at_with, arg_at_resolve, hfind, hoa]
  · simp [arg_at_with, arg_at_resolve, hfind, hoa]
  · simp [has_arg, hfind, hne]
  · simp [arg_count, hfind]
  · exact Nat.pos_of_ne_zero (by simpa [List.length_eq_zero] using hne)

/-- Registry with one declared SINGLE optional `--out` (for C10). -/
def C10_decl : ArgumentParser :=
  match add_optional_long ArgumentParser.init "--out" Optional_Type.SINGLE "" with
  | .ok pr => pr.1
  | .error _ => ArgumentParser.init

/-- The C10 registry after scanning `["--out", ""]` (the empty token is
not option-like, so it is consumed as the value of `--out`). -/
def C10_scanned : ArgumentParser :=
  match parse_args C10_decl "prog" ["--out", ""] with
  | .ok p _ _ => p
  | _ => C10_decl

/-- C10 (witness): the theorem applied to the registry scanned from
`["--out", ""]`, whose `out` option stores the empty string. -/
theorem claim_C10_witness :
    parse_args C10_decl "prog" ["--out", ""] = ScanOutcome.ok C10_scanned 1 [] ∧
    find_key "out" C10_scanned.optional_args =
      some ⟨' ', Optional_Type.SINGLE, [""], ""⟩ ∧
    arg_at_with parse_stringT C10_scanned "out" 0 true "dflt" = .ok "dflt" ∧
    has_arg C10_scanned "out" = .ok true :=
  ⟨rfl, rfl,
    (claim_C10 C10_scanned "out" ⟨' ', Optional_Type.SINGLE, [""], ""⟩ 0
      parse_stringT "dflt" rfl rfl).2.1,
    (claim_C10 C10_scanned "out" ⟨' ', Optional_Type.SINGLE, [""], ""⟩ 0
      parse_stringT "dflt" rfl rfl).2.2.1⟩
